import Mathlib

/-!
# OntLogin Go SDK — verification of the server-side protocol validator

Shallow embedding of `sdk/sdk.go` (package `sdk` of
`ontology-tech/ontlogin-sdk-go`).  Go strings are embedded as `List Char`,
Go's `(value, error)` multiple returns as pairs with an `Option Err`
component (the caller may ignore the error, exactly as Go permits), and
fallible single-result functions as `Except Err _`.  The external
collaborators (chain resolvers, nonce authority) are function-valued fields,
and the validator is instrumented to also return the list of external calls
it makes, so that claims about call ordering and call arguments are
statable.
-/

namespace OntLogin

/-- Error kinds.  Each constructor corresponds to one `fmt.Errorf` site in
`sdk.go` (or to an error produced by a Go standard-library call the code
uses); `external` stands for an error value returned by an injected
collaborator and surfaced unchanged. -/
inductive Err where
  /-- `modules.ERR_WRONG_VERSION` -/
  | wrongVersion
  /-- `modules.ERR_TYPE_NOT_SUPPORTED` -/
  | typeNotSupported
  /-- `modules.ERR_ACTION_NOT_SUPPORTED` -/
  | actionNotSupported
  /-- `"did and VerificationMethod not match"` -/
  | didMismatch
  /-- `"valid did format"` (from `GetDIDChain`) -/
  | invalidDidFormat
  /-- `"nonce is existed on server side"` -/
  | nonceInvalid
  /-- `"decode proof value failed:..."` (from `hex.DecodeString`) -/
  | decodeProofValueFailed
  /-- `"not a support did chain:..."` -/
  | unsupportedChain
  /-- `"verificationMethod format invalid"` (from `getDIDKeyAndIndex`) -/
  | malformedReference
  /-- `strconv.Atoi` syntax error (`strconv.ErrSyntax`) -/
  | atoiSyntax
  /-- `strconv.Atoi` range error (`strconv.ErrRange`) -/
  | atoiRange
  /-- an error value produced by an external collaborator -/
  | external (msg : String)
deriving DecidableEq, Repr

/-- Embedding of a Go string as its character list. -/
def str (s : String) : List Char := s.data

/-- Go `strings.Split` with a one-character separator, on character lists.
`splitOn sep l` splits `l` at every occurrence of `sep`; like Go's
`strings.Split`, the empty list yields one empty segment. -/
def splitOn (sep : Char) : List Char → List (List Char)
  | [] => [[]]
  | c :: rest =>
    if c = sep then [] :: splitOn sep rest
    else
      match splitOn sep rest with
      | [] => [[c]]
      | seg :: segs => (c :: seg) :: segs

/-- Go `strings.EqualFold`, restricted to the ASCII fold the protocol
constants need: both sides are compared lowercased character by character. -/
def equalFold (a b : List Char) : Bool :=
  a.map Char.toLower == b.map Char.toLower

/-- All characters are decimal digits (and there is at least one):
the digit-string acceptance condition of `strconv.Atoi`. -/
def parseDigits : List Char → Option Nat
  | [] => none
  | [c] => if c.isDigit then some (c.toNat - '0'.toNat) else none
  | c :: rest =>
    if c.isDigit then
      match parseDigits rest with
      | some n => some ((c.toNat - '0'.toNat) * 10 ^ rest.length + n)
      | none => none
    else none

/-- The unsigned branch of `strconv.Atoi`: decimal digits, clamped to the
64-bit `int` maximum with a range error on overflow. -/
def atoiPos (digits : List Char) : Int × Option Err :=
  match parseDigits digits with
  | none => (0, some .atoiSyntax)
  | some n =>
    if n ≤ 9223372036854775807 then ((n : Int), none)
    else (9223372036854775807, some .atoiRange)

/-- Go `strconv.Atoi` (64-bit `int`): optional leading sign, then decimal
digits.  Returns the Go pair `(value, err)`: `(0, syntax-error)` on a
malformed string, and on overflow the clamped extreme value together with a
range error, exactly as `strconv.ParseInt` documents. -/
def atoi (s : List Char) : Int × Option Err :=
  match s with
  | [] => (0, some .atoiSyntax)
  | c :: rest =>
    if c = '-' then
      match parseDigits rest with
      | none => (0, some .atoiSyntax)
      | some n =>
        if n ≤ 9223372036854775808 then (-(n : Int), none)
        else (-9223372036854775808, some .atoiRange)
    else if c = '+' then atoiPos rest
    else atoiPos (c :: rest)

/-- One hexadecimal digit, as `encoding/hex` accepts it. -/
def hexDigit (c : Char) : Option Nat :=
  if '0' ≤ c ∧ c ≤ '9' then some (c.toNat - '0'.toNat)
  else if 'a' ≤ c ∧ c ≤ 'f' then some (c.toNat - 'a'.toNat + 10)
  else if 'A' ≤ c ∧ c ≤ 'F' then some (c.toNat - 'A'.toNat + 10)
  else none

/-- Go `hex.DecodeString`: pairs of hex digits to bytes; fails on an odd
length or a non-hex character. -/
def hexDecode : List Char → Option (List Nat)
  | [] => some []
  | [_] => none
  | a :: b :: rest =>
    match hexDigit a, hexDigit b, hexDecode rest with
    | some x, some y, some l => some ((16 * x + y) :: l)
    | _, _, _ => none

/-! ## Data model (`modules` package)

The `modules` package is not part of the repository snapshot; its message
shapes and constants are modelled from the spec (§3: ClientHello,
ServerHello, ClientResponse, Proof, ServerInfo / ServerInfoToSign, VCFilter,
SDKConfig) and from the field sets `sdk.go` reads and writes. -/

/-- Modelled from the spec: protocol version string (`SYS_VER`); the spec's
end-to-end scenario uses `"v1"`. -/
def SYS_VER : List Char := str "v1"

/-- Modelled from the spec: the "client hello" message type tag
(`TYPE_CLIENT_HELLO`). -/
def TYPE_CLIENT_HELLO : List Char := str "ClientHello"

/-- Modelled from the spec: the "server hello" message type tag
(`TYPE_SERVER_HELLO`). -/
def TYPE_SERVER_HELLO : List Char := str "ServerHello"

/-- Modelled from the spec: the "client response" message type tag
(`TYPE_CLIENT_RESPONSE`). -/
def TYPE_CLIENT_RESPONSE : List Char := str "ClientResponse"

/-- Modelled from the spec: the Authorization action
(`ACTION_AUTHORIZATION`); an integer in `sdk.go` (`req.Action` feeds
`genRandomNonceFunc func(int) string`). -/
def ACTION_AUTHORIZATION : Int := 0

/-- Modelled from the spec: the Certification action
(`ACTION_CERTIFICATION`). -/
def ACTION_CERTIFICATION : Int := 1

/-- Modelled from the spec: server descriptor (`modules.ServerInfo`): name,
icon, URL, DID, verification method. -/
structure ServerInfo where
  Name : List Char
  Icon : List Char
  Url : List Char
  Did : List Char
  VerificationMethod : List Char
deriving DecidableEq, Repr

/-- Modelled from the spec: the reduced server descriptor included in the
signed payload (`modules.ServerInfoToSign`): name, URL, DID only. -/
structure ServerInfoToSign where
  Name : List Char
  Url : List Char
  Did : List Char
deriving DecidableEq, Repr

/-- Modelled from the spec: a credential filter (`modules.VCFilter`):
credential type plus required/optional flag. -/
structure VCFilter where
  Type' : List Char
  Required : Bool
deriving DecidableEq, Repr

/-- Modelled from the spec: `modules.ClientHello`: protocol version, message
type, requested action. -/
structure ClientHello where
  Ver : List Char
  Type' : List Char
  Action : Int
deriving DecidableEq, Repr

/-- Modelled from the spec: `modules.ServerHello`: protocol version, message
type, nonce, server descriptor, chain list, algorithm list, optional VC
filter list (`none` models Go's nil slice, the "absent" state of the field
before `GenerateChallenge` assigns it). -/
structure ServerHello where
  Ver : List Char
  Type' : List Char
  Nonce : List Char
  Server : ServerInfo
  Chain : List (List Char)
  Alg : List (List Char)
  VCFilters : Option (List VCFilter)
deriving DecidableEq, Repr

/-- Modelled from the spec: `modules.Proof`: verification-method reference,
creation timestamp, hex-encoded signature value. -/
structure SigProof where
  VerificationMethod : List Char
  Created : Nat
  Value : List Char
deriving DecidableEq, Repr

/-- Modelled from the spec: `modules.ClientResponse`: protocol version,
message type, claimed DID, echoed nonce, proof record, optional verifiable
presentations (opaque strings). -/
structure ClientResponse where
  Ver : List Char
  Type' : List Char
  Did : List Char
  Nonce : List Char
  Proof : SigProof
  VPs : List (List Char)
deriving DecidableEq, Repr

/-- Modelled from the spec: `modules.ClientResponseMsg`, the canonical
signing message; the fields are exactly those `ValidateClientResponse`
assigns in its composite literal: message type, reduced server descriptor,
nonce, DID, proof-created timestamp. -/
structure ClientResponseMsg where
  Type' : List Char
  Server : ServerInfoToSign
  Nonce : List Char
  Did : List Char
  Created : Nat
deriving DecidableEq, Repr

/-- A chain's DID processor (`did.DidProcessor`), the capability contract of
§6 consumed by the validator: each method returns a Go error (`some e`) or
succeeds (`none`).  The canonical message is passed as the
`ClientResponseMsg` structure itself: `json.Marshal` of that struct is a
deterministic injective encoding, so claims about the message content are
claims about the structure. -/
structure DidProcessor where
  verifySig : List Char → Int → ClientResponseMsg → List Nat → Option Err
  verifyPresentation :
    List Char → Int → List Char → Option (List VCFilter) → Option Err

/-- `SDKConfig`: accepted chains, accepted algorithms, server descriptor,
per-action VC filter map (`map[int][]*modules.VCFilter`; `none` models an
absent key / nil slice). -/
structure SDKConfig where
  Chain : List (List Char)
  Alg : List (List Char)
  ServerInfo : ServerInfo
  VCFilters : Int → Option (List VCFilter)

/-- `OntLoginSdk`: the chain resolver registry (an association list models
the Go map `didProcessors`), the configuration, and the two injected nonce
functions.  `getActionByNonce` returns the bound action or an external
error. -/
structure OntLoginSdk where
  didProcessors : List (List Char × DidProcessor)
  conf : SDKConfig
  genRandomNonceFunc : Int → List Char
  getActionByNonce : List Char → Except Err Int

/-- Go map lookup `s.didProcessors[chain]`. -/
def lookupProc (ps : List (List Char × DidProcessor)) (k : List Char) :
    Option DidProcessor :=
  match ps with
  | [] => none
  | (k', p) :: rest => if k' = k then some p else lookupProc rest k

/-! ## The SDK functions (`sdk.go`) -/

/-- `GetDIDChain`: split the DID on `:`; exactly three segments required
(the three-element pattern is Go's `len(tmpArr) != 3` check), the second
segment is the chain identifier. -/
def GetDIDChain (d : List Char) : Except Err (List Char) :=
  match splitOn ':' d with
  | [_, chain, _] => .ok chain
  | _ => .error .invalidDidFormat

/-- `getDIDKeyAndIndex`: split the verification method on `#` (exactly two
parts; the two-element pattern is Go's `len(tmpArr) != 2` check), split the
second part on `-` (exactly two parts), `strconv.Atoi` the second sub-part.
Returns the Go triple `(did, index, err)`: on a split failure
`("", 0, err)`, and on an `Atoi` failure the triple `(tmpArr[0], idx, err)`
with `idx` the value `Atoi` returned alongside its error. -/
def getDIDKeyAndIndex (verifymethod : List Char) :
    List Char × Int × Option Err :=
  match splitOn '#' verifymethod with
  | [p0, p1] =>
    (match splitOn '-' p1 with
     | [_, k1] =>
       let r := atoi k1
       (p0, r.1, r.2)
     | _ => ([], 0, some .malformedReference))
  | _ => ([], 0, some .malformedReference)

/-- `validateClientHello`: version, type, action checks, in order. -/
def validateClientHello (req : ClientHello) : Option Err :=
  if !equalFold req.Ver SYS_VER then some .wrongVersion
  else if !equalFold req.Type' TYPE_CLIENT_HELLO then some .typeNotSupported
  else if req.Action ≠ ACTION_AUTHORIZATION ∧ req.Action ≠ ACTION_CERTIFICATION then
    some .actionNotSupported
  else none

/-- `validateClientResponse` (the private format check): version and type. -/
def validateClientResponseFormat (response : ClientResponse) : Option Err :=
  if !equalFold response.Ver SYS_VER then some .wrongVersion
  else if !equalFold response.Type' TYPE_CLIENT_RESPONSE then some .typeNotSupported
  else none

/-- `GenerateChallenge`, instrumented: besides the Go result it returns the
list of nonce-mint calls made (each entry is the action passed to
`genRandomNonceFunc`). -/
def GenerateChallenge (s : OntLoginSdk) (req : ClientHello) :
    Except Err ServerHello × List Int :=
  match validateClientHello req with
  | some e => (.error e, [])
  | none =>
    let uuid := s.genRandomNonceFunc req.Action
    let base : ServerHello :=
      { Ver := SYS_VER, Type' := TYPE_SERVER_HELLO, Nonce := uuid,
        Server := s.conf.ServerInfo, Chain := s.conf.Chain,
        Alg := s.conf.Alg, VCFilters := none }
    let res :=
      if (s.conf.VCFilters req.Action).isSome then
        { base with VCFilters := s.conf.VCFilters req.Action }
      else base
    (.ok res, [req.Action])

/-- An external-collaborator call made during one `ValidateClientResponse`
run, recorded with the arguments the code passed. -/
inductive Event where
  /-- `s.getActionByNonce(res.Nonce)` -/
  | nonceLookup (nonce : List Char)
  /-- `processor.VerifySig(did, index, dataToSign, sigdata)` -/
  | verifySigCall (did : List Char) (index : Int) (msg : ClientResponseMsg)
      (sig : List Nat)
  /-- `processor.VerifyPresentation(did, index, vp, requiredTypes)` -/
  | verifyPresCall (did : List Char) (index : Int) (vp : List Char)
      (requiredTypes : Option (List VCFilter))
deriving DecidableEq, Repr

/-- The `for _, vp := range res.VPs` loop: verify each presentation in
order, stopping at the first failure; returns the Go error (or `none`) and
the `VerifyPresentation` calls made. -/
def verifyPresentations (p : DidProcessor) (d : List Char) (i : Int)
    (t : Option (List VCFilter)) :
    List (List Char) → Option Err × List Event
  | [] => (none, [])
  | vp :: rest =>
    match p.verifyPresentation d i vp t with
    | some e => (some e, [.verifyPresCall d i vp t])
    | none =>
      let r := verifyPresentations p d i t rest
      (r.1, .verifyPresCall d i vp t :: r.2)

/-- `ValidateClientResponse`, instrumented: besides the Go result (`.ok ()`
= accepted) it returns, in order, the external calls made.  Faithful to the
source, including: the error of `getDIDKeyAndIndex` is never inspected (the
`err` variable is overwritten by the `GetDIDChain` call before any check),
the registry lookup happens only after the nonce lookup and the hex decode,
and `requiredTypes` is the action's whole configured filter list. -/
def ValidateClientResponse (s : OntLoginSdk) (res : ClientResponse) :
    Except Err Unit × List Event :=
  match validateClientResponseFormat res with
  | some e => (.error e, [])
  | none =>
    let pr := getDIDKeyAndIndex res.Proof.VerificationMethod
    let d := pr.1
    let index := pr.2.1
    if !equalFold d res.Did then (.error .didMismatch, [])
    else
      match GetDIDChain d with
      | .error e => (.error e, [])
      | .ok chain =>
        match s.getActionByNonce res.Nonce with
        | .error _ => (.error .nonceInvalid, [.nonceLookup res.Nonce])
        | .ok action =>
          let msg : ClientResponseMsg :=
            { Type' := res.Type',
              Server := { Name := s.conf.ServerInfo.Name,
                          Url := s.conf.ServerInfo.Url,
                          Did := s.conf.ServerInfo.Did },
              Nonce := res.Nonce, Did := d,
              Created := res.Proof.Created }
          match hexDecode res.Proof.Value with
          | none => (.error .decodeProofValueFailed, [.nonceLookup res.Nonce])
          | some sigdata =>
            match lookupProc s.didProcessors chain with
            | none => (.error .unsupportedChain, [.nonceLookup res.Nonce])
            | some processor =>
              match processor.verifySig d index msg sigdata with
              | some e =>
                (.error e,
                 [.nonceLookup res.Nonce, .verifySigCall d index msg sigdata])
              | none =>
                if res.VPs.isEmpty then
                  (.ok (),
                   [.nonceLookup res.Nonce, .verifySigCall d index msg sigdata])
                else
                  let requiredTypes := s.conf.VCFilters action
                  let r := verifyPresentations processor d index requiredTypes res.VPs
                  (match r.1 with
                   | some e => .error e
                   | none => .ok (),
                   [.nonceLookup res.Nonce, .verifySigCall d index msg sigdata]
                     ++ r.2)

/-- The canonical message handed to `VerifySig` in a run's event list, when
the run reached signature verification. -/
def sigMsgOf : List Event → Option ClientResponseMsg
  | [] => none
  | .verifySigCall _ _ m _ :: _ => some m
  | _ :: rest => sigMsgOf rest

/-- Whether a run's event list contains any chain-resolver call
(`VerifySig` or `VerifyPresentation`). -/
def hasResolverCall : List Event → Bool
  | [] => false
  | .verifySigCall _ _ _ _ :: _ => true
  | .verifyPresCall _ _ _ _ :: _ => true
  | _ :: rest => hasResolverCall rest

/-- Whether a run's event list contains a `VerifyPresentation` call. -/
def hasPresCall : List Event → Bool
  | [] => false
  | .verifyPresCall _ _ _ _ :: _ => true
  | _ :: rest => hasPresCall rest

/-- The `requiredTypes` argument of the first `VerifyPresentation` call in a
run's event list, when there is one. -/
def presTypesOf : List Event → Option (Option (List VCFilter))
  | [] => none
  | .verifyPresCall _ _ _ t :: _ => some t
  | _ :: rest => presTypesOf rest

instance {ε α : Type} [DecidableEq ε] [DecidableEq α] :
    DecidableEq (Except ε α) := fun a b =>
  match a, b with
  | .ok x, .ok y =>
    if h : x = y then isTrue (h ▸ rfl)
    else isFalse (fun hc => h (Except.ok.inj hc))
  | .error x, .error y =>
    if h : x = y then isTrue (h ▸ rfl)
    else isFalse (fun hc => h (Except.error.inj hc))
  | .ok _, .error _ => isFalse (fun hc => Except.noConfusion hc)
  | .error _, .ok _ => isFalse (fun hc => Except.noConfusion hc)

/-! ## Concrete fixtures

A small concrete instantiation of the SDK, mirroring the repository's own
`initTestEnv`: an `"ont"` registry entry whose processor accepts every
signature, and a nonce authority that binds every nonce to action `0`.
Variants used by individual claims perturb one aspect each. -/

/-- A chain processor that accepts every signature and rejects exactly the
presentation `"badvp"`. -/
def testProc : DidProcessor :=
  { verifySig := fun _ _ _ _ => none,
    verifyPresentation := fun _ _ vp _ =>
      if vp = str "badvp" then some (.external "presentation invalid") else none }

/-- Test configuration: chain `"ont"`, algorithm `"ES256"`, a server
descriptor, and for action `0` one required and one optional credential
filter. -/
def testConf : SDKConfig :=
  { Chain := [str "ont"], Alg := [str "ES256"],
    ServerInfo := { Name := str "testServer", Icon := str "http://somepic.jpg",
                    Url := str "https://ont.io", Did := str "did:ont:sampletest",
                    VerificationMethod := [] },
    VCFilters := fun a =>
      if a = 0 then some [⟨str "EmailCredential", true⟩, ⟨str "AgeCredential", false⟩]
      else none }

/-- Test SDK instance: registry `{"ont" ↦ testProc}`, every nonce bound to
action `0`. -/
def testSdk : OntLoginSdk :=
  { didProcessors := [(str "ont", testProc)], conf := testConf,
    genRandomNonceFunc := fun _ => str "nonce1",
    getActionByNonce := fun _ => .ok 0 }

/-- Test SDK whose nonce authority rejects every nonce (unknown / expired /
consumed). -/
def testSdkBadNonce : OntLoginSdk :=
  { testSdk with getActionByNonce := fun _ => .error (.external "unknown nonce") }

/-- A well-formed client response for `did:ont:abc`, key 1, no
presentations. -/
def testRes : ClientResponse :=
  { Ver := str "v1", Type' := str "ClientResponse", Did := str "did:ont:abc",
    Nonce := str "nonce1",
    Proof := { VerificationMethod := str "did:ont:abc#key-1", Created := 1633000000,
               Value := str "ab01" },
    VPs := [] }

/-! ## Lemmas about the string utilities -/

theorem splitOn_ne_nil (sep : Char) (l : List Char) : splitOn sep l ≠ [] := by
  induction l with
  | nil => simp [splitOn]
  | cons c rest ih =>
    simp only [splitOn]
    split
    · simp
    · split
      · simp
      · simp

theorem splitOn_not_mem {sep : Char} {l : List Char} (h : sep ∉ l) :
    splitOn sep l = [l] := by
  induction l with
  | nil => rfl
  | cons c rest ih =>
    have hc : ¬ (c = sep) := fun he => h (he ▸ List.mem_cons_self c rest)
    have hr : sep ∉ rest := fun hm => h (List.mem_cons_of_mem c hm)
    simp only [splitOn, if_neg hc, ih hr]

theorem splitOn_append {sep : Char} {pre : List Char} (rest : List Char)
    (h : sep ∉ pre) :
    splitOn sep (pre ++ sep :: rest) = pre :: splitOn sep rest := by
  induction pre with
  | nil => simp [splitOn]
  | cons c pre' ih =>
    have hc : ¬ (c = sep) := fun he => h (he ▸ List.mem_cons_self c pre')
    have hp : sep ∉ pre' := fun hm => h (List.mem_cons_of_mem c hm)
    simp only [List.cons_append, splitOn, if_neg hc, List.append_eq, ih hp]

theorem mem_splitOn {sep : Char} {l x : List Char} (hx : x ∈ splitOn sep l) :
    sep ∉ x := by
  induction l generalizing x with
  | nil =>
    simp only [splitOn, List.mem_singleton] at hx
    subst hx; simp
  | cons c rest ih =>
    by_cases hc : c = sep
    · subst hc
      simp only [splitOn, if_pos rfl] at hx
      rcases List.mem_cons.mp hx with h1 | h2
      · subst h1; simp
      · exact ih h2
    · simp only [splitOn, if_neg hc] at hx
      cases hsp : splitOn sep rest with
      | nil => exact absurd hsp (splitOn_ne_nil sep rest)
      | cons seg segs =>
        rw [hsp] at hx
        rcases List.mem_cons.mp hx with h1 | h2
        · subst h1
          intro hm
          rcases List.mem_cons.mp hm with h3 | h4
          · exact hc h3.symm
          · exact ih (hsp ▸ List.mem_cons_self seg segs) h4
        · exact ih (hsp ▸ List.mem_cons_of_mem seg h2)

theorem atoiPos_nonneg {d : List Char} (h : (atoiPos d).2 = none) :
    0 ≤ (atoiPos d).1 := by
  unfold atoiPos at h ⊢
  cases hp : parseDigits d with
  | none => exact le_refl 0
  | some n =>
    rw [hp] at h
    by_cases hle : n ≤ 9223372036854775807
    · simp [hle]
    · simp [hle] at h

theorem atoi_nonneg {s : List Char} (hm : '-' ∉ s) (h : (atoi s).2 = none) :
    0 ≤ (atoi s).1 := by
  cases s with
  | nil => simp [atoi] at h
  | cons c rest =>
    have hc : ¬ (c = '-') := fun he => hm (he ▸ List.mem_cons_self c rest)
    by_cases hplus : c = '+'
    · simp only [atoi, if_neg hc, if_pos hplus] at h ⊢
      exact atoiPos_nonneg h
    · simp only [atoi, if_neg hc, if_neg hplus] at h ⊢
      exact atoiPos_nonneg h

/-! ## Lemmas about the DID reference parser and `GetDIDChain` -/

theorem getDIDKeyAndIndex_nonneg {vm d : List Char} {i : Int}
    (h : getDIDKeyAndIndex vm = (d, i, none)) : 0 ≤ i := by
  unfold getDIDKeyAndIndex at h
  split at h
  · rename_i p0 p1 heq1
    split at h
    · rename_i k0 k1 heq2
      simp only [Prod.mk.injEq] at h
      obtain ⟨h1, h2, h3⟩ := h
      subst h2
      have hk1 : k1 ∈ splitOn '-' p1 := by rw [heq2]; simp
      exact atoi_nonneg (mem_splitOn hk1) h3
    · simp at h
  · simp at h

theorem getDIDKeyAndIndex_shape {A B N : List Char} {n : Int}
    (hA : '#' ∉ A) (hBh : '#' ∉ B) (hNh : '#' ∉ N)
    (hB : '-' ∉ B) (hN : '-' ∉ N)
    (hatoi : atoi N = (n, none)) :
    getDIDKeyAndIndex (A ++ '#' :: (B ++ '-' :: N)) = (A, n, none) := by
  have hmem : '#' ∉ B ++ '-' :: N := by
    intro hm
    rcases List.mem_append.mp hm with h1 | h2
    · exact hBh h1
    · rcases List.mem_cons.mp h2 with h3 | h4
      · exact absurd h3 (by decide)
      · exact hNh h4
  have hsplit1 : splitOn '#' (A ++ '#' :: (B ++ '-' :: N)) = [A, B ++ '-' :: N] := by
    rw [splitOn_append _ hA, splitOn_not_mem hmem]
  have hsplit2 : splitOn '-' (B ++ '-' :: N) = [B, N] := by
    rw [splitOn_append _ hB, splitOn_not_mem hN]
  simp only [getDIDKeyAndIndex, hsplit1, hsplit2, hatoi]

theorem GetDIDChain_ok {c i : List Char} (hc : ':' ∉ c) (hi : ':' ∉ i) :
    GetDIDChain (str "did" ++ ':' :: (c ++ ':' :: i)) = .ok c := by
  have hdid : ':' ∉ str "did" := by decide
  have hsplit : splitOn ':' (str "did" ++ ':' :: (c ++ ':' :: i)) =
      [str "did", c, i] := by
    rw [splitOn_append _ hdid, splitOn_append _ hc, splitOn_not_mem hi]
  simp only [GetDIDChain, hsplit]

theorem GetDIDChain_err {s : List Char} (h : (splitOn ':' s).length ≠ 3) :
    GetDIDChain s = .error .invalidDidFormat := by
  unfold GetDIDChain
  split
  · rename_i heq
    rw [heq] at h
    simp at h
  · rfl

/-! ## Lemmas about the response validator -/

theorem verifyPresentations_ok_iff (p : DidProcessor) (d : List Char) (i : Int)
    (t : Option (List VCFilter)) (l : List (List Char)) :
    (verifyPresentations p d i t l).1 = none ↔
      ∀ vp ∈ l, p.verifyPresentation d i vp t = none := by
  induction l with
  | nil => simp [verifyPresentations]
  | cons vp rest ih =>
    simp only [verifyPresentations]
    cases hv : p.verifyPresentation d i vp t with
    | some e => simp [hv]
    | none => simp [hv, ih]

theorem verifyPresentations_events (p : DidProcessor) (d : List Char) (i : Int)
    (t : Option (List VCFilter)) (l : List (List Char)) :
    ∀ ev ∈ (verifyPresentations p d i t l).2,
      ∃ vp, ev = .verifyPresCall d i vp t := by
  induction l with
  | nil => simp [verifyPresentations]
  | cons vp rest ih =>
    simp only [verifyPresentations]
    cases hv : p.verifyPresentation d i vp t with
    | some e =>
      intro ev hev
      simp only [List.mem_singleton] at hev
      exact ⟨vp, hev⟩
    | none =>
      intro ev hev
      simp only [List.mem_cons] at hev
      rcases hev with h1 | h2
      · exact ⟨vp, h1⟩
      · exact ih ev h2

theorem sigMsgOf_run {s : OntLoginSdk} {res : ClientResponse}
    {m : ClientResponseMsg}
    (h : sigMsgOf (ValidateClientResponse s res).2 = some m) :
    m = { Type' := res.Type',
          Server := { Name := s.conf.ServerInfo.Name,
                      Url := s.conf.ServerInfo.Url,
                      Did := s.conf.ServerInfo.Did },
          Nonce := res.Nonce,
          Did := (getDIDKeyAndIndex res.Proof.VerificationMethod).1,
          Created := res.Proof.Created } := by
  simp only [ValidateClientResponse] at h
  split at h
  · simp [sigMsgOf] at h
  · split at h
    · simp [sigMsgOf] at h
    · split at h
      · simp [sigMsgOf] at h
      · split at h
        · simp [sigMsgOf] at h
        · split at h
          · simp [sigMsgOf] at h
          · split at h
            · simp [sigMsgOf] at h
            · split at h
              · simp only [sigMsgOf, Option.some.injEq] at h
                exact h.symm
              · split at h
                · simp only [sigMsgOf, Option.some.injEq] at h
                  exact h.symm
                · simp only [List.cons_append, sigMsgOf, Option.some.injEq] at h
                  exact h.symm

theorem ValidateClientResponse_didMismatch {s : OntLoginSdk}
    {res : ClientResponse}
    (hfmt : validateClientResponseFormat res = none)
    (hne : equalFold (getDIDKeyAndIndex res.Proof.VerificationMethod).1
      res.Did = false) :
    ValidateClientResponse s res = (.error .didMismatch, []) := by
  simp only [ValidateClientResponse, hfmt, hne, Bool.not_false, if_true]

theorem ValidateClientResponse_nonceError {s : OntLoginSdk}
    {res : ClientResponse} {d : List Char} {index : Int} {perr : Option Err}
    {chain : List Char} {e : Err}
    (hfmt : validateClientResponseFormat res = none)
    (hp : getDIDKeyAndIndex res.Proof.VerificationMethod = (d, index, perr))
    (heq : equalFold d res.Did = true)
    (hch : GetDIDChain d = .ok chain)
    (ha : s.getActionByNonce res.Nonce = .error e) :
    ValidateClientResponse s res = (.error .nonceInvalid, [.nonceLookup res.Nonce]) := by
  simp only [ValidateClientResponse, hfmt, hp, heq, hch, ha, Bool.not_true,
    if_false, Bool.false_eq_true]

theorem ValidateClientResponse_run {s : OntLoginSdk} {res : ClientResponse}
    {d : List Char} {index : Int} {perr : Option Err} {chain : List Char}
    {action : Int} {sigdata : List Nat} {processor : DidProcessor}
    (hfmt : validateClientResponseFormat res = none)
    (hp : getDIDKeyAndIndex res.Proof.VerificationMethod = (d, index, perr))
    (heq : equalFold d res.Did = true)
    (hch : GetDIDChain d = .ok chain)
    (ha : s.getActionByNonce res.Nonce = .ok action)
    (hx : hexDecode res.Proof.Value = some sigdata)
    (hproc : lookupProc s.didProcessors chain = some processor)
    (hsig : processor.verifySig d index
      { Type' := res.Type',
        Server := { Name := s.conf.ServerInfo.Name,
                    Url := s.conf.ServerInfo.Url,
                    Did := s.conf.ServerInfo.Did },
        Nonce := res.Nonce, Did := d,
        Created := res.Proof.Created } sigdata = none) :
    ValidateClientResponse s res =
      ((if res.VPs.isEmpty then .ok ()
        else
          match (verifyPresentations processor d index
              (s.conf.VCFilters action) res.VPs).1 with
          | some e => .error e
          | none => .ok ()),
       [.nonceLookup res.Nonce,
        .verifySigCall d index
          { Type' := res.Type',
            Server := { Name := s.conf.ServerInfo.Name,
                        Url := s.conf.ServerInfo.Url,
                        Did := s.conf.ServerInfo.Did },
            Nonce := res.Nonce, Did := d,
            Created := res.Proof.Created } sigdata]
        ++ (if res.VPs.isEmpty then []
            else (verifyPresentations processor d index
              (s.conf.VCFilters action) res.VPs).2)) := by
  simp only [ValidateClientResponse, hfmt, hp, heq, hch, ha, hx, hproc, hsig,
    Bool.not_true, if_false, Bool.false_eq_true]
  by_cases hvp : res.VPs.isEmpty
  · simp [hvp]
  · simp only [hvp, if_false, Bool.false_eq_true]

/-! ## Fixture variants used by individual claims -/

/-- `testRes` with the protocol version written `"V1"` instead of `"v1"`
(both pass the case-insensitive format check). -/
def testResUpperVer : ClientResponse := { testRes with Ver := str "V1" }

/-- `testRes` with a malformed verification method: the key index `"x"` is
not an integer. -/
def testResBadIndex : ClientResponse :=
  { testRes with
    Proof := { testRes.Proof with VerificationMethod := str "did:ont:abc#key-x" } }

/-- `testRes` moved to the unregistered chain `"eth"`. -/
def testResEth : ClientResponse :=
  { testRes with
    Did := str "did:eth:abc"
    Proof := { testRes.Proof with VerificationMethod := str "did:eth:abc#key-1" } }

/-- `testRes` whose claimed DID differs from the DID inside the
verification method. -/
def testResMismatch : ClientResponse := { testRes with Did := str "did:ont:other" }

/-- `testRes` carrying one verifying presentation. -/
def testResVP : ClientResponse := { testRes with VPs := [str "goodvp"] }

/-- `testRes` carrying one verifying and one non-verifying presentation. -/
def testResVP2 : ClientResponse :=
  { testRes with VPs := [str "goodvp", str "badvp"] }

/-! ## The claims -/

/-- Claim C6: `GetDIDChain` returns the chain for every string of exactly
the form `did:<chain>:<identifier>` (colon-free chain and identifier), and
returns the parse error for every string that does not split into exactly
three colon-separated segments. -/
theorem claim_C6_getDIDChain :
    (∀ c i : List Char, ':' ∉ c → ':' ∉ i →
      GetDIDChain (str "did" ++ ':' :: (c ++ ':' :: i)) = .ok c) ∧
    (∀ s : List Char, (splitOn ':' s).length ≠ 3 →
      GetDIDChain s = .error .invalidDidFormat) :=
  ⟨fun _ _ hc hi => GetDIDChain_ok hc hi, fun _ h => GetDIDChain_err h⟩

/-- Witness for C6 at `did:ont:abc` and at a string with no colons. -/
theorem claim_C6_getDIDChain_witness :
    GetDIDChain (str "did" ++ ':' :: (str "ont" ++ ':' :: str "abc")) =
      .ok (str "ont") ∧
    GetDIDChain (str "nocolons") = .error .invalidDidFormat :=
  ⟨claim_C6_getDIDChain.1 (str "ont") (str "abc") (by decide) (by decide),
   claim_C6_getDIDChain.2 (str "nocolons") (by decide)⟩

/-- Claim C9: the verification-method parser never checks the literal label
`key`: every string `A#B-N` (no `#` in `A`, `B`, `N`; no `-` in `B`, `N`;
`N` an integer per `strconv.Atoi`) parses successfully to `(A, N)`. -/
theorem claim_C9_no_label_check {A B N : List Char} {n : Int}
    (hA : '#' ∉ A) (hBh : '#' ∉ B) (hNh : '#' ∉ N)
    (hB : '-' ∉ B) (hN : '-' ∉ N)
    (hatoi : atoi N = (n, none)) :
    getDIDKeyAndIndex (A ++ '#' :: (B ++ '-' :: N)) = (A, n, none) :=
  getDIDKeyAndIndex_shape hA hBh hNh hB hN hatoi

/-- Witness for C9: `did:ont:abc#foo-3` parses to `(did:ont:abc, 3)` even
though its second part is not labelled `key`. -/
theorem claim_C9_no_label_check_witness :
    getDIDKeyAndIndex (str "did:ont:abc" ++ '#' :: (str "foo" ++ '-' :: str "3")) =
      (str "did:ont:abc", 3, none) :=
  claim_C9_no_label_check (by decide) (by decide) (by decide) (by decide)
    (by decide) (by decide)

/-- Claim C10: whenever `getDIDKeyAndIndex` returns without error, the
returned key index is non-negative (the digits handed to `strconv.Atoi`
cannot contain a minus sign, because the part after `#` must split on `-`
into exactly two pieces). -/
theorem claim_C10_index_nonneg (vm d : List Char) (i : Int)
    (h : getDIDKeyAndIndex vm = (d, i, none)) : 0 ≤ i :=
  getDIDKeyAndIndex_nonneg h

/-- Witness for C10 at `did:ont:abc#key-7`. -/
theorem claim_C10_index_nonneg_witness :
    getDIDKeyAndIndex (str "did:ont:abc#key-7") = (str "did:ont:abc", 7, none) ∧
      (0 : Int) ≤ 7 :=
  ⟨by decide, claim_C10_index_nonneg (str "did:ont:abc#key-7") (str "did:ont:abc") 7 (by decide)⟩

/-- Claim C1 (counterexample): the canonical message does NOT contain the
protocol version — two valid responses differing only in the version
(`"v1"` vs `"V1"`, both accepted by the format check) are signed over the
same canonical message. -/
theorem claim_C1_counterexample :
    testRes.Ver ≠ testResUpperVer.Ver ∧
    sigMsgOf (ValidateClientResponse testSdk testRes).2 =
      sigMsgOf (ValidateClientResponse testSdk testResUpperVer).2 ∧
    (sigMsgOf (ValidateClientResponse testSdk testRes).2).isSome = true :=
  ⟨by decide, by decide, by decide⟩

/-- Claim C1 (amended): the canonical message `ValidateClientResponse`
passes to `VerifySig` contains exactly the message type, the reduced server
descriptor (name, URL, DID), the nonce, the parsed DID, and the proof's
creation timestamp — the protocol version is not part of it. -/
theorem claim_C1_signing_message {s : OntLoginSdk} {res : ClientResponse}
    {m : ClientResponseMsg}
    (h : sigMsgOf (ValidateClientResponse s res).2 = some m) :
    m = { Type' := res.Type',
          Server := { Name := s.conf.ServerInfo.Name,
                      Url := s.conf.ServerInfo.Url,
                      Did := s.conf.ServerInfo.Did },
          Nonce := res.Nonce,
          Did := (getDIDKeyAndIndex res.Proof.VerificationMethod).1,
          Created := res.Proof.Created } :=
  sigMsgOf_run h

/-- Witness for C1 at the `testSdk`/`testRes` run. -/
theorem claim_C1_signing_message_witness :
    ({ Type' := str "ClientResponse",
       Server := { Name := str "testServer", Url := str "https://ont.io",
                   Did := str "did:ont:sampletest" },
       Nonce := str "nonce1", Did := str "did:ont:abc",
       Created := 1633000000 } : ClientResponseMsg) =
      { Type' := testRes.Type',
        Server := { Name := testSdk.conf.ServerInfo.Name,
                    Url := testSdk.conf.ServerInfo.Url,
                    Did := testSdk.conf.ServerInfo.Did },
        Nonce := testRes.Nonce,
        Did := (getDIDKeyAndIndex testRes.Proof.VerificationMethod).1,
        Created := testRes.Proof.Created } :=
  claim_C1_signing_message (by decide)

/-- Claim C2 (code bug): the error returned by `getDIDKeyAndIndex` is never
inspected by `ValidateClientResponse`.  For the malformed reference
`did:ont:abc#key-x` the parser reports a syntax error, yet the validation
proceeds all the way to `VerifySig` with the defaulted key index `0` and —
with an accepting resolver — succeeds, instead of failing with the
malformed-reference error. -/
theorem claim_C2_unchecked_parse_error :
    (getDIDKeyAndIndex testResBadIndex.Proof.VerificationMethod).2.2 =
      some .atoiSyntax ∧
    ValidateClientResponse testSdk testResBadIndex =
      (.ok (),
       [.nonceLookup (str "nonce1"),
        .verifySigCall (str "did:ont:abc") 0
          { Type' := str "ClientResponse",
            Server := { Name := str "testServer", Url := str "https://ont.io",
                        Did := str "did:ont:sampletest" },
            Nonce := str "nonce1", Did := str "did:ont:abc",
            Created := 1633000000 } [171, 1]]) :=
  ⟨by decide, by decide⟩

/-- Claim C3 (counterexample): a response whose chain `"eth"` is absent
from the registry and whose nonce is invalid fails with the nonce error,
not the unsupported-chain error: the registry membership check runs after
the nonce lookup. -/
theorem claim_C3_counterexample :
    (lookupProc testSdkBadNonce.didProcessors (str "eth")).isNone = true ∧
    ValidateClientResponse testSdkBadNonce testResEth =
      (.error .nonceInvalid, [.nonceLookup (str "nonce1")]) ∧
    Err.nonceInvalid ≠ Err.unsupportedChain :=
  ⟨by decide, by decide, by decide⟩

/-- Claim C3 (amended): deriving the chain identifier precedes the nonce
lookup, but the registry membership check runs only later; whenever the
nonce lookup fails (after format, reference-comparison and DID-shape steps
pass) the validation fails with the nonce error, whatever the registry —
in particular also when the chain is unregistered. -/
theorem claim_C3_nonce_before_registry (s : OntLoginSdk)
    (res : ClientResponse) (d : List Char) (index : Int) (perr : Option Err)
    (chain : List Char) (e : Err)
    (hfmt : validateClientResponseFormat res = none)
    (hp : getDIDKeyAndIndex res.Proof.VerificationMethod = (d, index, perr))
    (heq : equalFold d res.Did = true)
    (hch : GetDIDChain d = .ok chain)
    (ha : s.getActionByNonce res.Nonce = .error e) :
    ValidateClientResponse s res =
      (.error .nonceInvalid, [.nonceLookup res.Nonce]) :=
  ValidateClientResponse_nonceError hfmt hp heq hch ha

/-- Witness for C3 at the `testSdkBadNonce`/`testResEth` run. -/
theorem claim_C3_nonce_before_registry_witness :
    ValidateClientResponse testSdkBadNonce testResEth =
      (.error .nonceInvalid, [.nonceLookup testResEth.Nonce]) :=
  claim_C3_nonce_before_registry testSdkBadNonce testResEth
    (str "did:eth:abc") 1 none (str "eth") (.external "unknown nonce")
    (by decide) (by decide) (by decide) (by decide) rfl

/-- Claim C4 (counterexample): the `requiredTypes` argument handed to
`VerifyPresentation` is the action's entire configured filter list — it
still contains the optional filter (`Required = false`), which the claim
says is excluded. -/
theorem claim_C4_counterexample :
    presTypesOf (ValidateClientResponse testSdk testResVP).2 =
      some (some [⟨str "EmailCredential", true⟩, ⟨str "AgeCredential", false⟩]) ∧
    (⟨str "AgeCredential", false⟩ : VCFilter) ∈
      [(⟨str "EmailCredential", true⟩ : VCFilter), ⟨str "AgeCredential", false⟩] ∧
    (⟨str "AgeCredential", false⟩ : VCFilter).Required = false :=
  ⟨by decide, by decide, by decide⟩

/-- Claim C4 (amended): every `VerifyPresentation` call in a validation run
receives, as its credential-filter argument, the whole `VCFilters` list the
configuration associates with the action bound to the nonce — required and
optional entries alike, unfiltered. -/
theorem claim_C4_full_filter_list (s : OntLoginSdk) (res : ClientResponse)
    (d : List Char) (index : Int) (perr : Option Err) (chain : List Char)
    (action : Int) (sigdata : List Nat) (processor : DidProcessor)
    (hfmt : validateClientResponseFormat res = none)
    (hp : getDIDKeyAndIndex res.Proof.VerificationMethod = (d, index, perr))
    (heq : equalFold d res.Did = true)
    (hch : GetDIDChain d = .ok chain)
    (ha : s.getActionByNonce res.Nonce = .ok action)
    (hx : hexDecode res.Proof.Value = some sigdata)
    (hproc : lookupProc s.didProcessors chain = some processor)
    (hsig : processor.verifySig d index
      { Type' := res.Type',
        Server := { Name := s.conf.ServerInfo.Name,
                    Url := s.conf.ServerInfo.Url,
                    Did := s.conf.ServerInfo.Did },
        Nonce := res.Nonce, Did := d,
        Created := res.Proof.Created } sigdata = none)
    (dd : List Char) (ii : Int) (vp : List Char) (tt : Option (List VCFilter))
    (hev : Event.verifyPresCall dd ii vp tt ∈
      (ValidateClientResponse s res).2) :
    tt = s.conf.VCFilters action := by
  have h := ValidateClientResponse_run hfmt hp heq hch ha hx hproc hsig
  rw [h] at hev
  simp only [List.cons_append, List.nil_append, List.mem_cons] at hev
  rcases hev with h1 | h2 | h3
  · exact absurd h1 (by simp)
  · exact absurd h2 (by simp)
  · split at h3
    · simp at h3
    · obtain ⟨vp', hvp'⟩ := verifyPresentations_events processor d index
        (s.conf.VCFilters action) res.VPs _ h3
      simp only [Event.verifyPresCall.injEq] at hvp'
      exact hvp'.2.2.2

/-- Witness for C4 at the `testSdk`/`testResVP` run: the presentation call
carries the full two-element filter list of action 0. -/
theorem claim_C4_full_filter_list_witness :
    (some [(⟨str "EmailCredential", true⟩ : VCFilter),
           ⟨str "AgeCredential", false⟩] : Option (List VCFilter)) =
      testSdk.conf.VCFilters 0 :=
  claim_C4_full_filter_list testSdk testResVP (str "did:ont:abc") 1 none
    (str "ont") 0 [171, 1] testProc (by decide) (by decide) (by decide)
    (by decide) rfl (by decide) rfl rfl (str "did:ont:abc") 1 (str "goodvp")
    (some [⟨str "EmailCredential", true⟩, ⟨str "AgeCredential", false⟩])
    (by decide)

/-- Claim C5: `GenerateChallenge` validates version, type, action in order
(fail fast, with the respective errors), and on success mints exactly one
nonce bound to the requested action and returns the ServerHello carrying
the supported version, server-hello tag, that nonce, the configured server
descriptor, chain list and algorithm list, with the VC filter field equal
to the configuration's (possibly absent) entry for the action. -/
theorem claim_C5_generateChallenge (s : OntLoginSdk) (req : ClientHello) :
    (equalFold req.Ver SYS_VER = false →
      GenerateChallenge s req = (.error .wrongVersion, [])) ∧
    (equalFold req.Ver SYS_VER = true →
     equalFold req.Type' TYPE_CLIENT_HELLO = false →
      GenerateChallenge s req = (.error .typeNotSupported, [])) ∧
    (equalFold req.Ver SYS_VER = true →
     equalFold req.Type' TYPE_CLIENT_HELLO = true →
     req.Action ≠ ACTION_AUTHORIZATION → req.Action ≠ ACTION_CERTIFICATION →
      GenerateChallenge s req = (.error .actionNotSupported, [])) ∧
    (equalFold req.Ver SYS_VER = true →
     equalFold req.Type' TYPE_CLIENT_HELLO = true →
     (req.Action = ACTION_AUTHORIZATION ∨ req.Action = ACTION_CERTIFICATION) →
      GenerateChallenge s req =
        (.ok { Ver := SYS_VER, Type' := TYPE_SERVER_HELLO,
               Nonce := s.genRandomNonceFunc req.Action,
               Server := s.conf.ServerInfo, Chain := s.conf.Chain,
               Alg := s.conf.Alg,
               VCFilters := s.conf.VCFilters req.Action },
         [req.Action])) := by
  refine ⟨?_, ?_, ?_, ?_⟩
  · intro h1
    simp [GenerateChallenge, validateClientHello, h1]
  · intro h1 h2
    simp [GenerateChallenge, validateClientHello, h1, h2]
  · intro h1 h2 h3 h4
    simp [GenerateChallenge, validateClientHello, h1, h2, h3, h4]
  · intro h1 h2 h3
    have hact : ¬(req.Action ≠ ACTION_AUTHORIZATION ∧
        req.Action ≠ ACTION_CERTIFICATION) := by
      rcases h3 with h | h <;> simp [h]
    simp only [GenerateChallenge, validateClientHello, h1, h2, Bool.not_true,
      Bool.false_eq_true, if_false, if_neg hact]
    cases hvf : s.conf.VCFilters req.Action with
    | some l => simp [hvf]
    | none => simp [hvf]

/-- Witness for C5: the success branch at a concrete hello (action 0,
case-folded type tag). -/
theorem claim_C5_generateChallenge_witness :
    GenerateChallenge testSdk
      { Ver := str "V1", Type' := str "clienthello", Action := 0 } =
      (.ok { Ver := SYS_VER, Type' := TYPE_SERVER_HELLO,
             Nonce := str "nonce1", Server := testConf.ServerInfo,
             Chain := testConf.Chain, Alg := testConf.Alg,
             VCFilters := some [⟨str "EmailCredential", true⟩,
                                ⟨str "AgeCredential", false⟩] },
       [0]) :=
  (claim_C5_generateChallenge testSdk
    { Ver := str "V1", Type' := str "clienthello", Action := 0 }).2.2.2
    (by decide) (by decide) (Or.inl rfl)

/-- Claim C7: whenever the claimed DID differs case-insensitively from the
DID parsed out of the verification method (and the format check passed),
`ValidateClientResponse` fails with the DID-mismatch error and performs no
chain-resolver call, whatever the resolver registry. -/
theorem claim_C7_didMismatch (s : OntLoginSdk) (res : ClientResponse)
    (hfmt : validateClientResponseFormat res = none)
    (hne : equalFold (getDIDKeyAndIndex res.Proof.VerificationMethod).1
      res.Did = false) :
    ValidateClientResponse s res = (.error .didMismatch, []) ∧
    hasResolverCall (ValidateClientResponse s res).2 = false := by
  have h : ValidateClientResponse s res = (.error .didMismatch, []) :=
    ValidateClientResponse_didMismatch hfmt hne
  refine ⟨h, ?_⟩
  rw [h]
  rfl

/-- Witness for C7 at `testResMismatch` (`Did` is `did:ont:other`, method
DID is `did:ont:abc`). -/
theorem claim_C7_didMismatch_witness :
    ValidateClientResponse testSdk testResMismatch =
      (.error .didMismatch, []) ∧
    hasResolverCall (ValidateClientResponse testSdk testResMismatch).2 =
      false :=
  claim_C7_didMismatch testSdk testResMismatch (by decide) (by decide)

/-- Claim C8: presentation verification runs only when the response carries
presentations and is all-or-nothing: once the signature verified, the run
is accepted exactly when every carried presentation verifies (so one
failing presentation rejects the whole validation), and a response with no
presentations is accepted without any `VerifyPresentation` call. -/
theorem claim_C8_presentations (s : OntLoginSdk) (res : ClientResponse)
    (d : List Char) (index : Int) (perr : Option Err) (chain : List Char)
    (action : Int) (sigdata : List Nat) (processor : DidProcessor)
    (hfmt : validateClientResponseFormat res = none)
    (hp : getDIDKeyAndIndex res.Proof.VerificationMethod = (d, index, perr))
    (heq : equalFold d res.Did = true)
    (hch : GetDIDChain d = .ok chain)
    (ha : s.getActionByNonce res.Nonce = .ok action)
    (hx : hexDecode res.Proof.Value = some sigdata)
    (hproc : lookupProc s.didProcessors chain = some processor)
    (hsig : processor.verifySig d index
      { Type' := res.Type',
        Server := { Name := s.conf.ServerInfo.Name,
                    Url := s.conf.ServerInfo.Url,
                    Did := s.conf.ServerInfo.Did },
        Nonce := res.Nonce, Did := d,
        Created := res.Proof.Created } sigdata = none) :
    ((ValidateClientResponse s res).1 = .ok () ↔
      ∀ vp ∈ res.VPs,
        processor.verifyPresentation d index vp
          (s.conf.VCFilters action) = none) ∧
    (res.VPs = [] →
      (ValidateClientResponse s res).1 = .ok () ∧
      hasPresCall (ValidateClientResponse s res).2 = false) := by
  have h := ValidateClientResponse_run hfmt hp heq hch ha hx hproc hsig
  constructor
  · rw [h]
    by_cases hvp : res.VPs.isEmpty
    · have hnil : res.VPs = [] := List.isEmpty_iff.mp hvp
      simp [hvp, hnil]
    · simp only [hvp, Bool.false_eq_true, if_false]
      rw [← verifyPresentations_ok_iff]
      cases hr : (verifyPresentations processor d index
          (s.conf.VCFilters action) res.VPs).1 with
      | none => simp [hr]
      | some e => simp [hr]
  · intro hnil
    rw [h]
    simp [hnil, hasPresCall]

/-- Witness for C8: the run carrying the non-verifying presentation
`"badvp"` among two presentations is rejected. -/
theorem claim_C8_presentations_witness :
    (ValidateClientResponse testSdk testResVP2).1 ≠ Except.ok () :=
  fun hok =>
    absurd
      ((claim_C8_presentations testSdk testResVP2 (str "did:ont:abc") 1 none
          (str "ont") 0 [171, 1] testProc (by decide) (by decide) (by decide)
          (by decide) rfl (by decide) rfl rfl).1.mp hok
        (str "badvp") (by decide))
      (by decide)

end OntLogin
